import Mathlib

/-!
Verification of the tagd daemon (github.com/leosunmo/tagd).

The development shallowly embeds the Go sources: Go maps become association
lists over `String` with an overwriting insert, Go slices become `List`,
nilable pointers become `Option`, fallible calls become `Except`/`Option`
results supplied by oracle structures standing for the AWS SDK collaborators,
and every externally visible API call made by a code path is recorded in an
action trace so ordering and absence claims can be stated.
-/

namespace Tagd

/-! ## Go map model

Go maps keyed by strings are modelled as association lists with an
overwriting insert (`m[k] = v`).  Only `lookup`, key uniqueness and update
semantics of the native map are relied upon by the embedded code. -/

def mapInsert {α : Type} : List (String × α) → String → α → List (String × α)
  | [], k, v => [(k, v)]
  | kv :: rest, k, v => if kv.1 = k then (k, v) :: rest else kv :: mapInsert rest k v

def mapKeys {α : Type} (m : List (String × α)) : List String :=
  m.map Prod.fst

theorem lookup_mapInsert {α : Type} (m : List (String × α)) (k k' : String) (v : α) :
    List.lookup k' (mapInsert m k v) = if k' = k then some v else List.lookup k' m := by
  induction m with
  | nil =>
    by_cases h : k' = k
    · subst h; simp [mapInsert]
    · simp [mapInsert, h]
  | cons kv rest ih =>
    obtain ⟨a, b⟩ := kv
    by_cases h1 : a = k
    · subst h1
      by_cases h2 : k' = a
      · subst h2; simp [mapInsert, List.lookup_cons]
      · have hb : (k' == a) = false := by simp [h2]
        simp [mapInsert, List.lookup_cons, h2, hb]
    · by_cases h2 : k' = a
      · subst h2
        simp [mapInsert, List.lookup_cons, h1]
      · have hb : (k' == a) = false := by simp [h2]
        simp [mapInsert, List.lookup_cons, h1, h2, hb, ih]

theorem mem_mapKeys_mapInsert {α : Type} (m : List (String × α)) (k k' : String) (v : α) :
    k' ∈ mapKeys (mapInsert m k v) ↔ k' ∈ mapKeys m ∨ k' = k := by
  induction m with
  | nil => simp [mapInsert, mapKeys, eq_comm]
  | cons kv rest ih =>
    obtain ⟨a, b⟩ := kv
    simp only [mapKeys] at ih
    by_cases h1 : a = k
    · subst h1
      simp [mapInsert, mapKeys, List.mem_cons]
      tauto
    · simp only [mapInsert, mapKeys, h1, if_neg, not_false_iff, List.map_cons, List.mem_cons]
      rw [ih]
      tauto

theorem nodup_mapKeys_mapInsert {α : Type} (m : List (String × α)) (k : String) (v : α)
    (h : (mapKeys m).Nodup) : (mapKeys (mapInsert m k v)).Nodup := by
  induction m with
  | nil => simp [mapInsert, mapKeys]
  | cons kv rest ih =>
    obtain ⟨a, b⟩ := kv
    simp only [mapKeys, List.map_cons, List.nodup_cons] at h
    by_cases h1 : a = k
    · subst h1
      simp only [mapInsert, if_pos, mapKeys, List.map_cons, List.nodup_cons]
      exact ⟨h.1, h.2⟩
    · simp only [mapInsert, h1, if_neg, not_false_iff, mapKeys, List.map_cons, List.nodup_cons]
      refine ⟨?_, ih h.2⟩
      intro hmem
      rcases (mem_mapKeys_mapInsert rest k a v).mp hmem with h' | h'
      · exact h.1 h'
      · exact h1 h'

/-! ## Glob matching

`NewDaemon` (src/daemon.go:99) matches configured group-name patterns against
live group names with `glob.Glob` from github.com/ryanuber/go-glob, a
third-party collaborator whose source is not part of this repository.  Its
documented semantics (spec section 8: exact string, `*` wildcard) are the
split-on-star algorithm: the pattern is split on `*`; the first fragment must
start the subject, each middle fragment is consumed at its first occurrence,
and the last fragment must end what remains.  Strings are handled as
character lists. -/

def splitStar : List Char → List (List Char)
  | [] => [[]]
  | c :: rest =>
    if c = '*' then [] :: splitStar rest
    else
      match splitStar rest with
      | [] => [[c]]
      | p :: ps => (c :: p) :: ps

def chopAfter (part : List Char) : List Char → Option (List Char)
  | [] => if part.isPrefixOf ([] : List Char) then some [] else none
  | c :: t =>
    if part.isPrefixOf (c :: t) then some ((c :: t).drop part.length)
    else chopAfter part t

def globTail : List (List Char) → List Char → Bool
  | [], _ => true
  | [p], s => p.isSuffixOf s
  | p :: rest, s =>
    match chopAfter p s with
    | none => false
    | some s' => globTail rest s'

def globMatchL (pattern subj : List Char) : Bool :=
  match splitStar pattern with
  | [] => subj == pattern
  | [p] => subj == p
  | p :: rest => p.isPrefixOf subj && globTail rest (subj.drop p.length)

def globMatch (pattern subj : String) : Bool :=
  globMatchL pattern.toList subj.toList

theorem splitStar_no_star (p : List Char) (h : '*' ∉ p) : splitStar p = [p] := by
  induction p with
  | nil => simp [splitStar]
  | cons c rest ih =>
    have hc : c ≠ '*' := fun hc => h (hc ▸ List.mem_cons_self c rest)
    have hrest : '*' ∉ rest := fun hm => h (List.mem_cons_of_mem c hm)
    simp [splitStar, hc, ih hrest]

theorem globMatch_no_star (pattern subj : String) (h : '*' ∉ pattern.toList) :
    globMatch pattern subj = true ↔ pattern = subj := by
  unfold globMatch globMatchL
  rw [splitStar_no_star pattern.toList h]
  simp only [beq_iff_eq]
  constructor
  · intro h'
    exact String.ext (h'.symm)
  · intro h'
    exact congrArg String.toList h'.symm

theorem globMatch_star (subj : String) : globMatch "*" subj = true := by
  have hsplit : splitStar ['*'] = [[], []] := by simp [splitStar]
  unfold globMatch globMatchL
  rw [show ("*" : String).toList = ['*'] from rfl, hsplit]
  simp [globTail, List.isPrefixOf, List.isSuffixOf]

/-! ## Daemon configuration and the tagger resolver

From src/daemon.go.  `TaggingConfig` carries the configured pattern
(`ASGName`), the static tags (`Tags`, a Go string map) and the key-prefix
rules (`KeyPrefix`, here `rules`).  `NewDaemon` (lines 96-104) iterates the
configured entries, and inside that over the live group names fetched at
startup, calling `addTagger` (lines 208-210) for every glob match;
`addTagger` assigns into the Go map `d.asgTaggers` keyed by the live name. -/

structure TaggingConfig where
  asgName : String
  tags : List (String × String)
  rules : List String
deriving DecidableEq

def addTagger (taggers : List (String × TaggingConfig)) (asgName : String)
    (conf : TaggingConfig) : List (String × TaggingConfig) :=
  mapInsert taggers asgName conf

def resolveTaggers (configs : List TaggingConfig) (asgNames : List String) :
    List (String × TaggingConfig) :=
  configs.foldl
    (fun acc conf =>
      asgNames.foldl
        (fun acc2 n => if globMatch conf.asgName n then addTagger acc2 n conf else acc2)
        acc)
    []

def lastOpt {α : Type} : List α → Option α
  | [] => none
  | [a] => some a
  | _ :: b :: t => lastOpt (b :: t)

theorem lastOpt_ne_none {α : Type} (a : α) (l : List α) : lastOpt (a :: l) ≠ none := by
  induction l generalizing a with
  | nil => simp [lastOpt]
  | cons b t ih => simp only [lastOpt]; exact ih b

theorem lastOpt_cons {α : Type} (a : α) (l : List α) :
    lastOpt (a :: l) = Option.orElse (lastOpt l) (fun _ => some a) := by
  cases l with
  | nil => simp [lastOpt, Option.orElse]
  | cons b t =>
    rw [show lastOpt (a :: b :: t) = lastOpt (b :: t) from rfl]
    cases hl : lastOpt (b :: t) with
    | none => exact absurd hl (lastOpt_ne_none b t)
    | some v => simp [Option.orElse]

theorem lastOpt_eq_none_iff {α : Type} (l : List α) : lastOpt l = none ↔ l = [] := by
  cases l with
  | nil => simp [lastOpt]
  | cons a t => simp [lastOpt_ne_none a t]

theorem lookup_innerFold (conf : TaggingConfig) (asgNames : List String)
    (m : List (String × TaggingConfig)) (x : String) :
    List.lookup x (asgNames.foldl
        (fun acc2 n => if globMatch conf.asgName n then addTagger acc2 n conf else acc2) m) =
      if x ∈ asgNames ∧ globMatch conf.asgName x = true then some conf
      else List.lookup x m := by
  induction asgNames generalizing m with
  | nil => simp
  | cons n rest ih =>
    simp only [List.foldl_cons]
    rw [ih]
    by_cases hg : globMatch conf.asgName n = true <;>
      by_cases hxn : x = n <;>
      by_cases hx : x ∈ rest ∧ globMatch conf.asgName x = true <;>
      simp_all [addTagger, lookup_mapInsert, List.mem_cons]

theorem lookup_resolveAux (configs : List TaggingConfig) (asgNames : List String)
    (m : List (String × TaggingConfig)) (x : String) (hx : x ∈ asgNames) :
    List.lookup x (configs.foldl
        (fun acc conf => asgNames.foldl
          (fun acc2 n => if globMatch conf.asgName n then addTagger acc2 n conf else acc2)
          acc) m) =
      Option.orElse (lastOpt (configs.filter (fun c => globMatch c.asgName x)))
        (fun _ => List.lookup x m) := by
  induction configs generalizing m with
  | nil => simp [lastOpt, Option.orElse]
  | cons c cs ih =>
    simp only [List.foldl_cons, List.filter_cons]
    rw [ih, lookup_innerFold]
    by_cases hgc : globMatch c.asgName x = true
    · rw [if_pos (And.intro hx hgc), if_pos hgc, lastOpt_cons]
      cases hfc : lastOpt (cs.filter (fun c => globMatch c.asgName x)) <;>
        simp [Option.orElse]
    · rw [if_neg (fun hc => hgc hc.2), if_neg hgc]

theorem lookup_resolveTaggers (configs : List TaggingConfig) (asgNames : List String)
    (x : String) (hx : x ∈ asgNames) :
    List.lookup x (resolveTaggers configs asgNames) =
      lastOpt (configs.filter (fun c => globMatch c.asgName x)) := by
  unfold resolveTaggers
  rw [lookup_resolveAux configs asgNames [] x hx]
  cases h : lastOpt (configs.filter (fun c => globMatch c.asgName x)) <;>
    simp [Option.orElse]

theorem nodup_mapKeys_innerFold (conf : TaggingConfig) (asgNames : List String)
    (m : List (String × TaggingConfig)) (h : (mapKeys m).Nodup) :
    (mapKeys (asgNames.foldl
        (fun acc2 n => if globMatch conf.asgName n then addTagger acc2 n conf else acc2)
        m)).Nodup := by
  induction asgNames generalizing m with
  | nil => simpa
  | cons n rest ih =>
    simp only [List.foldl_cons]
    apply ih
    by_cases hg : globMatch conf.asgName n = true
    · simp only [hg, if_pos, addTagger]
      exact nodup_mapKeys_mapInsert m n conf h
    · simpa [hg]

theorem nodup_mapKeys_resolveTaggers (configs : List TaggingConfig) (asgNames : List String) :
    (mapKeys (resolveTaggers configs asgNames)).Nodup := by
  unfold resolveTaggers
  have hgen : ∀ m : List (String × TaggingConfig), (mapKeys m).Nodup →
      (mapKeys (configs.foldl
        (fun acc conf => asgNames.foldl
          (fun acc2 n => if globMatch conf.asgName n then addTagger acc2 n conf else acc2)
          acc) m)).Nodup := by
    induction configs with
    | nil => intro m hm; simpa
    | cons c cs ih =>
      intro m hm
      simp only [List.foldl_cons]
      exact ih _ (nodup_mapKeys_innerFold c asgNames m hm)
  exact hgen [] (by simp [mapKeys])

/-- Claim C6: after daemon construction, a tagger for a live group name exists
iff the name matches some configured pattern under glob semantics: a pattern
without the `*` wildcard matches exactly the identical string, the bare `*`
pattern matches everything, and `resolveTaggers` (the tagger-construction loop
of `NewDaemon`, src/daemon.go:96-104) registers a tagger exactly for the live
names matched by some configured entry.  A single pattern may thereby yield
zero, one, or many taggers. -/
theorem watched_iff_globMatch (configs : List TaggingConfig) (asgNames : List String)
    (x : String) (hx : x ∈ asgNames) :
    ((List.lookup x (resolveTaggers configs asgNames)).isSome = true ↔
      ∃ c ∈ configs, globMatch c.asgName x = true)
    ∧ (∀ c ∈ configs, '*' ∉ c.asgName.toList →
        (globMatch c.asgName x = true ↔ c.asgName = x))
    ∧ globMatch "*" x = true := by
  refine ⟨?_, fun c _ h => globMatch_no_star c.asgName x h, globMatch_star x⟩
  rw [lookup_resolveTaggers configs asgNames x hx]
  rw [Option.isSome_iff_ne_none, ne_eq, lastOpt_eq_none_iff]
  rw [List.filter_eq_nil_iff]
  push_neg
  rfl

/-- Claim C10: the tagger map built by `NewDaemon` holds at most one tagger
per live group name (its keys are unique), and the tagger recorded for a name
is the one built from the configuration entry that is latest in configuration
order among those whose pattern matches the name — later entries overwrite
earlier ones in `addTagger`'s map assignment (src/daemon.go:208-210). -/
theorem taggers_unique_lastEntryWins (configs : List TaggingConfig) (asgNames : List String)
    (x : String) (hx : x ∈ asgNames) :
    (mapKeys (resolveTaggers configs asgNames)).Nodup
    ∧ List.lookup x (resolveTaggers configs asgNames) =
        lastOpt (configs.filter (fun c => globMatch c.asgName x)) :=
  ⟨nodup_mapKeys_resolveTaggers configs asgNames,
   lookup_resolveTaggers configs asgNames x hx⟩

/-- Closed instance of claim C10's theorem: with two entries both matching the
same live group, the later entry's tagger is the one held in the map. -/
theorem taggers_unique_lastEntryWins_witness :
    List.lookup "grp-1"
        (resolveTaggers
          [{ asgName := "grp-*", tags := [("t", "1")], rules := [] },
           { asgName := "grp-1", tags := [("t", "2")], rules := [] }]
          ["grp-1"]) =
      some { asgName := "grp-1", tags := [("t", "2")], rules := [] } := by
  have h := taggers_unique_lastEntryWins
    [{ asgName := "grp-*", tags := [("t", "1")], rules := [] },
     { asgName := "grp-1", tags := [("t", "2")], rules := [] }]
    ["grp-1"] "grp-1" (by decide)
  exact h.2.trans (by decide)

/-- Closed instance of claim C6's theorem: the pattern `grp-*` yields a tagger
for the live group `grp-1`. -/
theorem watched_iff_globMatch_witness :
    (List.lookup "grp-1"
        (resolveTaggers [{ asgName := "grp-*", tags := [], rules := [] }]
          ["grp-1", "other"])).isSome = true := by
  have h := watched_iff_globMatch
    [{ asgName := "grp-*", tags := [], rules := [] }] ["grp-1", "other"] "grp-1" (by decide)
  exact h.1.mpr ⟨{ asgName := "grp-*", tags := [], rules := [] }, by decide, by decide⟩

/-! ## The shared loop variable of NewDaemon (claim C2) -/

/-- Modelled from the spec: `NewAutoscalingTagger`'s current body is absent
from the snapshot — the tagger in src/autoscaling.go is a stale revision (its
constructor takes a `[]map[string]string` and does not type-check against
`daemon.go`'s `addTagger`, which passes a `*TaggingConfig`).  The spec's Group
Tagger carries the configuration it was constructed from, so the constructor
is modelled as retaining the `*TaggingConfig` it receives.  `NewDaemon`
(src/daemon.go:97-103) passes `&conf`: the address of the `range` loop
variable, which under Go 1.14 (go.mod) is a single variable reused by every
iteration.  Every tagger therefore retains one shared pointer, and once the
loop has finished, that pointee holds the final element of
`config.TaggingConfigs`.  The configuration a tagger observes when it later
computes tags during `Start` is returned here: the last configured entry,
regardless of which entry matched the tagger's group. -/
def taggerEffectiveConfig (configs : List TaggingConfig) (asgNames : List String)
    (n : String) : Option TaggingConfig :=
  if (List.lookup n (resolveTaggers configs asgNames)).isSome then lastOpt configs
  else none

def cfgAlpha : TaggingConfig :=
  { asgName := "asg-a", tags := [("team", "alpha")], rules := [] }

def cfgBeta : TaggingConfig :=
  { asgName := "asg-b", tags := [("team", "beta")], rules := [] }

/-- Claim C2 fails on the code: with two distinct configuration entries
matching two distinct live groups, the tagger registered for `asg-a` was
matched by the first entry, yet the configuration it reads through the shared
loop-variable pointer is the second (last) entry, whose tag set differs. -/
theorem sharedLoopVariable_bug :
    List.lookup "asg-a" (resolveTaggers [cfgAlpha, cfgBeta] ["asg-a", "asg-b"]) =
      some cfgAlpha
    ∧ taggerEffectiveConfig [cfgAlpha, cfgBeta] ["asg-a", "asg-b"] "asg-a" = some cfgBeta
    ∧ cfgAlpha.tags ≠ cfgBeta.tags := by
  refine ⟨by decide, by decide, by decide⟩

/-! ## Tag computation (claim C1) -/

/-- Modelled from the spec: the key-prefix filter of the current tag
computation, absent from the snapshot (src/autoscaling.go is the stale
revision without `KeyPrefix` support).  Spec section 4.2: keep instance tags
"whose key matches any configured prefix (case-insensitive)"; case folding is
modelled per character. -/
def keyHitsRule (rules : List String) (key : String) : Bool :=
  rules.any (fun r =>
    List.isPrefixOf (r.toList.map Char.toLower) (key.toList.map Char.toLower))

/-- Modelled from the spec: `computeTags`, the current prefix-aware tag
computation, absent from the snapshot.  Spec section 4.2: "(only needed if
prefix-copy rules are configured) reads the instance's existing tags, keeps
only those whose key matches any configured prefix (case-insensitive), then
overlays the group's static tags — static entries overwrite same-key
prefix-derived entries.  When no prefix rules are configured, this step is
skipped and only static tags are used."  The overlay writes each static pair
into the map of copied instance tags. -/
def computeTags (staticTags : List (String × String)) (rules : List String)
    (instTags : List (String × String)) : List (String × String) :=
  let copied :=
    if rules.isEmpty then []
    else instTags.filter (fun kv => keyHitsRule rules kv.1)
  staticTags.foldl (fun acc kv => mapInsert acc kv.1 kv.2) copied

theorem lookup_filter_key {β : Type} (p : String → Bool) (l : List (String × β)) (k : String) :
    List.lookup k (l.filter (fun kv => p kv.1)) =
      if p k = true then List.lookup k l else none := by
  induction l with
  | nil => simp
  | cons kv rest ih =>
    obtain ⟨a, b⟩ := kv
    by_cases hk : k = a
    · subst hk
      by_cases hp : p k = true
      · simp [List.filter_cons, hp, List.lookup_cons]
      · simp [List.filter_cons, hp, ih, List.lookup_cons]
    · have hb : (k == a) = false := by simp [hk]
      by_cases hp : p a = true
      · simp [List.filter_cons, hp, List.lookup_cons, hb, ih]
      · simp [List.filter_cons, hp, ih, List.lookup_cons, hb]

theorem lookup_append {β : Type} (l1 l2 : List (String × β)) (k : String) :
    List.lookup k (l1 ++ l2) =
      Option.orElse (List.lookup k l1) (fun _ => List.lookup k l2) := by
  induction l1 with
  | nil => simp [Option.orElse]
  | cons kv t ih =>
    obtain ⟨a, b⟩ := kv
    by_cases hk : k = a
    · subst hk
      simp [List.lookup_cons, Option.orElse]
    · have hb : (k == a) = false := by simp [hk]
      simp only [List.cons_append, List.lookup_cons, hb]
      exact ih

theorem lookup_eq_none_of_notMemKeys {β : Type} (l : List (String × β)) (k : String)
    (h : k ∉ mapKeys l) : List.lookup k l = none := by
  induction l with
  | nil => simp
  | cons kv t ih =>
    obtain ⟨a, b⟩ := kv
    have hk : k ≠ a := fun hx => h (by simp [mapKeys, hx])
    have hb : (k == a) = false := by simp [hk]
    simp only [List.lookup_cons, hb]
    exact ih (fun hm => h (by simp [mapKeys] at hm ⊢; exact Or.inr hm))

theorem lookup_overlayFold (staticTags : List (String × String))
    (acc : List (String × String)) (k : String) :
    List.lookup k (staticTags.foldl (fun a kv => mapInsert a kv.1 kv.2) acc) =
      Option.orElse (List.lookup k staticTags.reverse) (fun _ => List.lookup k acc) := by
  induction staticTags generalizing acc with
  | nil => simp [Option.orElse]
  | cons kv rest ih =>
    obtain ⟨a, b⟩ := kv
    simp only [List.foldl_cons, List.reverse_cons]
    rw [ih, lookup_append]
    cases hrev : List.lookup k rest.reverse with
    | some v => simp [Option.orElse]
    | none =>
      simp only [Option.orElse]
      rw [lookup_mapInsert]
      by_cases hk : k = a
      · subst hk
        simp [List.lookup_cons]
      · have hb : (k == a) = false := by simp [hk]
        simp [List.lookup_cons, hb, hk]

theorem lookup_reverse_of_nodupKeys {β : Type} (l : List (String × β))
    (h : (mapKeys l).Nodup) (k : String) :
    List.lookup k l.reverse = List.lookup k l := by
  induction l with
  | nil => simp
  | cons kv rest ih =>
    obtain ⟨a, b⟩ := kv
    simp only [mapKeys, List.map_cons, List.nodup_cons] at h
    simp only [List.reverse_cons]
    rw [lookup_append, ih h.2]
    by_cases hk : k = a
    · subst hk
      rw [lookup_eq_none_of_notMemKeys rest k h.1]
      simp [List.lookup_cons, Option.orElse]
    · have hb : (k == a) = false := by simp [hk]
      cases hrest : List.lookup k rest with
      | some v => simp [Option.orElse, List.lookup_cons, hb, hrest]
      | none => simp [Option.orElse, List.lookup_cons, hb, hrest]

/-- Claim C1: for every key, the tag set computed for an instance holds the
static value whenever the static tags bind the key (static wins over a
prefix-copied instance tag for the same key); otherwise it holds the
instance's existing tag exactly when the key matches a configured key-prefix
rule case-insensitively; and with no prefix rules configured
(`keyHitsRule [] k` is always false) only the static tags are used. -/
theorem computeTags_precedence (staticTags : List (String × String)) (rules : List String)
    (instTags : List (String × String)) (k : String)
    (h : (mapKeys staticTags).Nodup) :
    List.lookup k (computeTags staticTags rules instTags) =
      Option.orElse (List.lookup k staticTags)
        (fun _ => if keyHitsRule rules k = true then List.lookup k instTags else none) := by
  unfold computeTags
  rw [lookup_overlayFold, lookup_reverse_of_nodupKeys staticTags h]
  cases hs : List.lookup k staticTags with
  | some v => simp [Option.orElse]
  | none =>
    simp only [Option.orElse]
    by_cases hr : rules.isEmpty = true
    · have hrules : rules = [] := by
        cases rules with
        | nil => rfl
        | cons a t => simp at hr
      subst hrules
      simp [keyHitsRule]
    · simp only [hr, if_neg, Bool.false_eq_true, not_false_iff]
      rw [lookup_filter_key]

/-- Closed instance of claim C1's theorem: the static value wins for the
shared key `team`, the prefix-matched instance tag `kubernetes.io/cluster` is
copied, and the unmatched instance tag `name` is dropped. -/
theorem computeTags_precedence_witness :
    List.lookup "team"
        (computeTags [("team", "core")] ["kubernetes.io"]
          [("team", "old"), ("kubernetes.io/cluster", "c1"), ("name", "n")]) =
      some "core"
    ∧ List.lookup "kubernetes.io/cluster"
        (computeTags [("team", "core")] ["kubernetes.io"]
          [("team", "old"), ("kubernetes.io/cluster", "c1"), ("name", "n")]) =
      some "c1"
    ∧ List.lookup "name"
        (computeTags [("team", "core")] ["kubernetes.io"]
          [("team", "old"), ("kubernetes.io/cluster", "c1"), ("name", "n")]) =
      none := by
  refine ⟨?_, ?_, ?_⟩
  · exact (computeTags_precedence [("team", "core")] ["kubernetes.io"]
      [("team", "old"), ("kubernetes.io/cluster", "c1"), ("name", "n")] "team"
      (by decide)).trans (by decide)
  · exact (computeTags_precedence [("team", "core")] ["kubernetes.io"]
      [("team", "old"), ("kubernetes.io/cluster", "c1"), ("name", "n")]
      "kubernetes.io/cluster" (by decide)).trans (by decide)
  · exact (computeTags_precedence [("team", "core")] ["kubernetes.io"]
      [("team", "old"), ("kubernetes.io/cluster", "c1"), ("name", "n")] "name"
      (by decide)).trans (by decide)

/-! ## Message processing (src/daemon.go Start, src/autoscaling.go TagVolumes)

External effects are recorded as an `Act` trace.  The AWS SDK and the JSON
decoder are collaborators, supplied as oracle structures. -/

/-- The launch-event constant checked at src/daemon.go:182. -/
def launchEvent : String := "autoscaling:EC2_INSTANCE_LAUNCH"

/-- Outer SNS delivery envelope (autoscaling.go `Envelope`); the `Time` field
is never read by the daemon loop and is omitted. -/
structure Envelope where
  typ : String
  subject : String
  message : String

/-- Inner autoscaling payload (autoscaling.go `Message`); `Time` and `Cause`
are never read by the daemon loop and are omitted. -/
structure AsgMessage where
  groupName : String
  event : String
  ec2InstanceID : String

/-- An SQS message as consumed by the loop: body and receipt handle. -/
structure SQSMessage where
  body : String
  receiptHandle : String

inductive Act where
  | deleteMessage (receiptHandle : String)
  | decodeEnvelope (body : String)
  | decodeInner (payload : String)
  | describeVolumes (instanceID : String)
  | createTags (volumeIDs : List String) (tags : List (Option (String × String)))
deriving DecidableEq

def isDeleteAct : Act → Bool
  | Act.deleteMessage _ => true
  | _ => false

def isTaggingCall : Act → Bool
  | Act.describeVolumes _ => true
  | Act.createTags _ _ => true
  | _ => false

/-- AWS error as observed through `awserr.Error`: a code and a message. -/
structure AwsErr where
  code : String
  emsg : String
deriving DecidableEq

/-- Oracle for the EC2 client calls made by `TagVolumes`
(src/autoscaling.go:135-177): `DescribeVolumes` filtered by
attachment.instance-id yields the attached volume ids (or a transport
error), and `CreateTags` may fail. -/
structure EC2Api where
  describeVolumes : String → Except AwsErr (List String)
  createTags : List String → List (Option (String × String)) → Option AwsErr

/-- `buildTags` from src/autoscaling.go:179-191.  The Go code allocates
`make([]*ec2.Tag, len(l.tags))` — a slice already holding `len(l.tags)` nil
pointers — and then appends one `*ec2.Tag` per key/value pair of each tag
map, so the result keeps the leading nil entries.  A Go map is modelled as an
association list in some iteration order; a nil `*ec2.Tag` is `none`. -/
def buildTags (tags : List (List (String × String))) : List (Option (String × String)) :=
  tags.foldl (fun acc tagSet => acc ++ tagSet.map (fun kv => some kv))
    (List.replicate tags.length none)

/-- `TagVolumes` from src/autoscaling.go:135-177: describe the volumes
attached to the instance (propagating a lookup error), return `none` (no
error) without any tag write when no volumes are attached, and otherwise
issue one bulk `CreateTags` over all volume ids with the built tag list,
propagating its error. -/
def tagVolumes (ec2 : EC2Api) (tags : List (List (String × String)))
    (instanceID : String) : List Act × Option AwsErr :=
  match ec2.describeVolumes instanceID with
  | Except.error e => ([Act.describeVolumes instanceID], some e)
  | Except.ok vols =>
    if vols.isEmpty then ([Act.describeVolumes instanceID], none)
    else
      ([Act.describeVolumes instanceID, Act.createTags vols (buildTags tags)],
       ec2.createTags vols (buildTags tags))

/-- Oracles for the two `json.Unmarshal` layers of the loop body
(src/daemon.go:161 and 172); `none` is a decode failure. -/
structure Decoders where
  decEnv : String → Option Envelope
  decMsg : String → Option AsgMessage

/-- The per-message body of the polling loop, src/daemon.go:152-188, as an
action trace.  In source order: `DeleteMessage` first (its error is only
logged), then the outer envelope is unmarshalled (failure skips the message),
then the inner payload (failure skips), then the group is looked up in
`d.asgTaggers` (no tagger skips), then the event kind is compared against the
launch constant (mismatch skips), and only then `Handle` → `TagVolumes`
runs.  `taggers` maps a group name to the tag-map list its tagger uses. -/
def processMessage (dec : Decoders)
    (taggers : List (String × List (List (String × String))))
    (ec2 : EC2Api) (m : SQSMessage) : List Act :=
  Act.deleteMessage m.receiptHandle :: Act.decodeEnvelope m.body ::
    match dec.decEnv m.body with
    | none => []
    | some env =>
      Act.decodeInner env.message ::
        match dec.decMsg env.message with
        | none => []
        | some msg =>
          match List.lookup msg.groupName taggers with
          | none => []
          | some tgs =>
            if msg.event = launchEvent then (tagVolumes ec2 tgs msg.ec2InstanceID).1
            else []

theorem no_delete_in_tagVolumes (ec2 : EC2Api) (tags : List (List (String × String)))
    (iid : String) : ((tagVolumes ec2 tags iid).1.countP isDeleteAct) = 0 := by
  unfold tagVolumes
  cases hd : ec2.describeVolumes iid with
  | error e => simp [List.countP_cons, isDeleteAct]
  | ok vols =>
    by_cases hv : vols.isEmpty = true <;>
      simp [hv, List.countP_cons, isDeleteAct]

/-- Claim C3: in the loop body for a received message, the acknowledge
(queue delete) is the first action — it precedes both JSON decode layers and
any tagging work — and the whole per-message trace contains exactly one
delete, so a decode failure after acknowledgment never causes a second
acknowledge attempt for that message. -/
theorem ack_first_and_only (dec : Decoders)
    (taggers : List (String × List (List (String × String))))
    (ec2 : EC2Api) (m : SQSMessage) :
    (processMessage dec taggers ec2 m).take 2 =
      [Act.deleteMessage m.receiptHandle, Act.decodeEnvelope m.body]
    ∧ (processMessage dec taggers ec2 m).countP isDeleteAct = 1 := by
  constructor
  · rfl
  · unfold processMessage
    cases he : dec.decEnv m.body with
    | none => simp [he, List.countP_cons, isDeleteAct]
    | some env =>
      cases hm : dec.decMsg env.message with
      | none => simp [he, hm, List.countP_cons, isDeleteAct]
      | some msg =>
        cases ht : List.lookup msg.groupName taggers with
        | none => simp [he, hm, ht, List.countP_cons, isDeleteAct]
        | some tgs =>
          by_cases hev : msg.event = launchEvent
          · have hnd := no_delete_in_tagVolumes ec2 tgs msg.ec2InstanceID
            simp [he, hm, ht, hev, List.countP_cons, isDeleteAct, hnd]
          · simp [he, hm, ht, hev, List.countP_cons, isDeleteAct]

/-- Claim C5: a received message whose inner payload has a non-launch event
kind, or whose group name has no registered tagger, produces no tagging API
call — neither a volume enumeration nor a tag write appears in its trace. -/
theorem skip_makes_no_tagging_call (dec : Decoders)
    (taggers : List (String × List (List (String × String))))
    (ec2 : EC2Api) (m : SQSMessage) (env : Envelope) (msg : AsgMessage)
    (h1 : dec.decEnv m.body = some env)
    (h2 : dec.decMsg env.message = some msg)
    (h3 : msg.event ≠ launchEvent ∨ List.lookup msg.groupName taggers = none) :
    (processMessage dec taggers ec2 m).countP isTaggingCall = 0 := by
  unfold processMessage
  rcases h3 with h3 | h3
  · cases ht : List.lookup msg.groupName taggers with
    | none => simp [h1, h2, ht, List.countP_cons, isTaggingCall]
    | some tgs => simp [h1, h2, ht, h3, List.countP_cons, isTaggingCall]
  · simp [h1, h2, h3, List.countP_cons, isTaggingCall]

/-- Closed instance of claim C5's theorem: a terminate event for a watched
group is acknowledged and decoded but triggers no tagging API call. -/
theorem skip_makes_no_tagging_call_witness :
    (processMessage
        ⟨fun _ => some ⟨"Notification", "s", "inner"⟩,
         fun _ => some ⟨"asg-a", "autoscaling:EC2_INSTANCE_TERMINATE", "i-1"⟩⟩
        [("asg-a", [[("team", "alpha")]])]
        ⟨fun _ => Except.ok ["vol-1"], fun _ _ => none⟩
        ⟨"outer", "rh-1"⟩).countP isTaggingCall = 0 :=
  skip_makes_no_tagging_call _ _ _ _ _ _ rfl rfl
    (Or.inl (by decide))

/-- Claim C8: when the volume enumeration reports zero attached volumes,
`TagVolumes` returns success (no error) and issues no tag-write call: the
trace holds only the volume enumeration itself. -/
theorem tagVolumes_zero_volumes (ec2 : EC2Api) (tags : List (List (String × String)))
    (iid : String) (h : ec2.describeVolumes iid = Except.ok []) :
    tagVolumes ec2 tags iid = ([Act.describeVolumes iid], none) := by
  unfold tagVolumes
  rw [h]
  simp

/-- Closed instance of claim C8's theorem. -/
theorem tagVolumes_zero_volumes_witness :
    tagVolumes ⟨fun _ => Except.ok [], fun _ _ => none⟩ [[("team", "alpha")]] "i-42" =
      ([Act.describeVolumes "i-42"], none) :=
  tagVolumes_zero_volumes _ [[("team", "alpha")]] "i-42" rfl

/-- Claim C4 fails on the code: `buildTags` allocates the slice with
`make([]*ec2.Tag, len(l.tags))` and then appends, so for one configured tag
map holding one pair the bulk tag-write list has two entries, the first of
which is a nil pointer — not exactly one non-null entry per configured
key/value pair. -/
theorem buildTags_nil_padding_bug :
    buildTags [[("Team", "dev")]] = [none, some ("Team", "dev")]
    ∧ none ∈ buildTags [[("Team", "dev")]]
    ∧ (buildTags [[("Team", "dev")]]).length = 2 := by
  refine ⟨by decide, by decide, by decide⟩

/-! ## Queue construction and subscription (src/unnamed/part_002, queue.go) -/

/-- `sqs.ErrCodeQueueDoesNotExist` from the AWS SDK. -/
def errCodeQueueDoesNotExist : String := "AWS.SimpleQueueService.NonExistentQueue"

/-- `sns.ErrCodeNotFoundException` from the AWS SDK. -/
def errCodeTopicNotFound : String := "NotFound"

/-- `request.CanceledErrorCode` from the AWS SDK: the error code carried by a
call aborted because its context was cancelled. -/
def canceledErrorCode : String := "RequestCanceled"

/-- Errors surfaced by the queue layer: either a message built with
`fmt.Errorf` / wrapping, or an SDK error passed through unchanged. -/
inductive QErr where
  | emsg (s : String)
  | aws (e : AwsErr)
deriving DecidableEq

/-- Oracle for the SNS client: `GetTopicAttributesWithContext` (none is
success) and `SubscribeWithContext` (topic arn, endpoint → subscription
arn). -/
structure SnsApi where
  getTopicAttributes : String → Option AwsErr
  subscribeCall : String → String → Except AwsErr String

/-- Oracle for the SQS client: `GetQueueUrlWithContext` by queue name and
`GetQueueAttributesWithContext` for the QueueArn attribute of a queue url. -/
structure SqsApi where
  getQueueUrl : String → Except AwsErr String
  getQueueArn : String → Except AwsErr String

inductive QAct where
  | checkTopic (topicArn : String)
  | checkQueue (queueName : String)
  | fetchQueueArn (url : String)
  | subscribeTopic (topicArn : String) (endpoint : String)
deriving DecidableEq

def isSubscribeAct : QAct → Bool
  | QAct.subscribeTopic _ _ => true
  | _ => false

def isCheckTopicAct : QAct → Bool
  | QAct.checkTopic _ => true
  | _ => false

/-- The `Queue` struct of queue.go. -/
structure Queue where
  name : String
  url : String
  arn : String
  topicArn : String
  subscriptionArn : String
deriving DecidableEq

/-- `TopicExists` (part_002:91-106): a NotFound code becomes the message
"topic ... doesn't exist", any other error is surfaced unchanged. -/
def topicExists (sns : SnsApi) (topicArn : String) : Option QErr :=
  match sns.getTopicAttributes topicArn with
  | some e =>
    if e.code = errCodeTopicNotFound then some (QErr.emsg ("topic " ++ topicArn ++ " doesn't exist"))
    else some (QErr.aws e)
  | none => none

/-- `QueueExists` (part_002:71-87): resolves the queue url by name; the
QueueDoesNotExist code becomes the message "queue ... doesn't exist", any
other error is surfaced unchanged. -/
def queueExists (sqs : SqsApi) (queueName : String) : Except QErr String :=
  match sqs.getQueueUrl queueName with
  | Except.error e =>
    if e.code = errCodeQueueDoesNotExist then
      Except.error (QErr.emsg ("queue " ++ queueName ++ " doesn't exist"))
    else Except.error (QErr.aws e)
  | Except.ok url => Except.ok url

/-- The queue-existence phase shared by both branches of `NewQueue`. -/
def newQueueQueuePhase (queueName topicArn : String) (sqs : SqsApi) :
    List QAct × Except QErr Queue :=
  match queueExists sqs queueName with
  | Except.error e => ([QAct.checkQueue queueName], Except.error e)
  | Except.ok url =>
    ([QAct.checkQueue queueName],
     Except.ok { name := queueName, url := url, arn := "", topicArn := topicArn,
                 subscriptionArn := "" })

/-- `NewQueue` (part_002:43-67): the topic-existence check runs only when a
topic arn was configured ("Only check for SNS topic existance if we want tagd
to manage it"); then the queue is resolved, failing construction on error.
No subscription is attempted here — `Subscribe` runs later from `Start`. -/
def newQueue (queueName topicArn : String) (sqs : SqsApi) (sns : SnsApi) :
    List QAct × Except QErr Queue :=
  if topicArn = "" then newQueueQueuePhase queueName topicArn sqs
  else
    match topicExists sns topicArn with
    | some e => ([QAct.checkTopic topicArn], Except.error e)
    | none =>
      let (acts, r) := newQueueQueuePhase queueName topicArn sqs
      (QAct.checkTopic topicArn :: acts, r)

/-- `Subscribe` (part_002:128-145): a no-op when no topic arn is configured;
otherwise the queue's own arn is resolved (cached after the first call, so
the attribute fetch only happens when `q.arn` is still empty), then the
queue is subscribed as an endpoint of the topic and the subscription arn
recorded.  Errors are wrapped with the source's fmt messages. -/
def subscribeQueue (q : Queue) (sqs : SqsApi) (sns : SnsApi) :
    List QAct × Except QErr Queue :=
  if q.topicArn = "" then ([], Except.ok q)
  else if q.arn = "" then
    match sqs.getQueueArn q.url with
    | Except.error e =>
      ([QAct.fetchQueueArn q.url],
       Except.error (QErr.emsg ("failed to get queue ARN: " ++ e.emsg)))
    | Except.ok arn =>
      match sns.subscribeCall q.topicArn arn with
      | Except.error e =>
        ([QAct.fetchQueueArn q.url, QAct.subscribeTopic q.topicArn arn],
         Except.error (QErr.emsg ("failed to subscribe to sqs: " ++ e.emsg)))
      | Except.ok subArn =>
        ([QAct.fetchQueueArn q.url, QAct.subscribeTopic q.topicArn arn],
         Except.ok { q with arn := arn, subscriptionArn := subArn })
  else
    match sns.subscribeCall q.topicArn q.arn with
    | Except.error e =>
      ([QAct.subscribeTopic q.topicArn q.arn],
       Except.error (QErr.emsg ("failed to subscribe to sqs: " ++ e.emsg)))
    | Except.ok subArn =>
      ([QAct.subscribeTopic q.topicArn q.arn],
       Except.ok { q with subscriptionArn := subArn })

/-- Claim C7: when the backing service reports the queue missing (and the
optional topic verification passes or is skipped), `NewQueue` fails with the
"queue ... doesn't exist" error and its trace holds no subscription attempt;
moreover with no configured topic arn, construction performs no
topic-existence check at all, and `Subscribe` on a queue without a topic arn
is a no-op succeeding with the queue unchanged. -/
theorem newQueue_fails_before_subscribe (queueName topicArn : String)
    (sqs : SqsApi) (sns : SnsApi) (e : AwsErr) (q : Queue)
    (htopic : topicArn = "" ∨ sns.getTopicAttributes topicArn = none)
    (hqueue : sqs.getQueueUrl queueName = Except.error e)
    (hcode : e.code = errCodeQueueDoesNotExist) :
    (newQueue queueName topicArn sqs sns).2 =
      Except.error (QErr.emsg ("queue " ++ queueName ++ " doesn't exist"))
    ∧ (newQueue queueName topicArn sqs sns).1.countP isSubscribeAct = 0
    ∧ (topicArn = "" →
        (newQueue queueName topicArn sqs sns).1.countP isCheckTopicAct = 0)
    ∧ (q.topicArn = "" → subscribeQueue q sqs sns = ([], Except.ok q)) := by
  have hphase : ∀ ta, newQueueQueuePhase queueName ta sqs =
      ([QAct.checkQueue queueName],
       Except.error (QErr.emsg ("queue " ++ queueName ++ " doesn't exist"))) := by
    intro ta
    unfold newQueueQueuePhase queueExists
    rw [hqueue]
    simp [hcode]
  have hsub : q.topicArn = "" → subscribeQueue q sqs sns = ([], Except.ok q) := by
    intro hq
    unfold subscribeQueue
    simp [hq]
  rcases htopic with ht | ht
  · refine ⟨?_, ?_, ?_, hsub⟩ <;>
      simp [newQueue, ht, hphase, List.countP_cons, isSubscribeAct, isCheckTopicAct]
  · by_cases hta : topicArn = ""
    · refine ⟨?_, ?_, ?_, hsub⟩ <;>
        simp [newQueue, hta, hphase, List.countP_cons, isSubscribeAct, isCheckTopicAct]
    · have htop : topicExists sns topicArn = none := by
        unfold topicExists
        rw [ht]
      refine ⟨?_, ?_, ?_, hsub⟩ <;>
        simp [newQueue, hta, htop, hphase, List.countP_cons, isSubscribeAct,
          isCheckTopicAct]

/-- Closed instance of claim C7's theorem: a missing queue with no configured
topic fails construction with the queue-missing message, no subscription and
no topic check; and `Subscribe` without a topic arn is a no-op. -/
theorem newQueue_fails_before_subscribe_witness :
    (newQueue "q1" "" ⟨fun _ => Except.error ⟨"AWS.SimpleQueueService.NonExistentQueue", "gone"⟩,
        fun _ => Except.ok "arn:q1"⟩
      ⟨fun _ => none, fun _ _ => Except.ok "sub-arn"⟩).2 =
      Except.error (QErr.emsg "queue q1 doesn't exist")
    ∧ (newQueue "q1" "" ⟨fun _ => Except.error ⟨"AWS.SimpleQueueService.NonExistentQueue", "gone"⟩,
        fun _ => Except.ok "arn:q1"⟩
      ⟨fun _ => none, fun _ _ => Except.ok "sub-arn"⟩).1.countP isSubscribeAct = 0
    ∧ subscribeQueue ⟨"q1", "u1", "", "", ""⟩
        ⟨fun _ => Except.error ⟨"AWS.SimpleQueueService.NonExistentQueue", "gone"⟩,
         fun _ => Except.ok "arn:q1"⟩
        ⟨fun _ => none, fun _ _ => Except.ok "sub-arn"⟩ =
        ([], Except.ok ⟨"q1", "u1", "", "", ""⟩) := by
  have h := newQueue_fails_before_subscribe "q1" ""
    ⟨fun _ => Except.error ⟨"AWS.SimpleQueueService.NonExistentQueue", "gone"⟩,
     fun _ => Except.ok "arn:q1"⟩
    ⟨fun _ => none, fun _ _ => Except.ok "sub-arn"⟩
    ⟨"AWS.SimpleQueueService.NonExistentQueue", "gone"⟩
    ⟨"q1", "u1", "", "", ""⟩
    (Or.inl rfl) rfl rfl
  exact ⟨h.1, h.2.1, h.2.2.2 rfl⟩

/-! ## Receive, delete and loop shutdown under cancellation (claim C9) -/

/-- `GetMessages` (part_002:148-163): an error whose code is the SDK's
cancellation code is swallowed — nil messages, nil error — because it is the
expected shutdown path; any other error is surfaced; a successful receive
yields the batch. -/
def getMessages (recvResult : Except AwsErr (List SQSMessage)) :
    Except AwsErr (List SQSMessage) :=
  match recvResult with
  | Except.error e => if e.code = canceledErrorCode then Except.ok [] else Except.error e
  | Except.ok msgs => Except.ok msgs

/-- `DeleteMessage` (part_002:166-178): a cancellation error from the delete
call is swallowed; any other error is surfaced. -/
def deleteMessage (delResult : Option AwsErr) : Option AwsErr :=
  match delResult with
  | some e => if e.code = canceledErrorCode then none else some e
  | none => none

inductive PollOutcome where
  | stopped (err : Option QErr)
  | looped (acts : List Act)
deriving DecidableEq

/-- One iteration of the polling loop of `Start` (src/daemon.go:142-190):
when the governing context is done the loop returns nil; otherwise the
(cancellation-filtered) receive result is taken, a receive error is only
logged and the batch stays empty, and every received message is processed in
order. -/
def pollIteration (ctxDone : Bool) (dec : Decoders)
    (taggers : List (String × List (List (String × String)))) (ec2 : EC2Api)
    (recvResult : Except AwsErr (List SQSMessage)) : PollOutcome :=
  if ctxDone then PollOutcome.stopped none
  else
    match getMessages recvResult with
    | Except.error _ => PollOutcome.looped []
    | Except.ok msgs =>
      PollOutcome.looped (msgs.foldl (fun acc m => acc ++ processMessage dec taggers ec2 m) [])

/-- Claim C9: a cancellation error surfacing from an in-flight receive yields
an empty batch and no error, a cancellation error surfacing from the
acknowledge (delete) call yields no error, and when the governing
cancellation signal has fired the polling loop returns with no error. -/
theorem cancellation_is_clean_shutdown (e : AwsErr) (dec : Decoders)
    (taggers : List (String × List (List (String × String)))) (ec2 : EC2Api)
    (recvResult : Except AwsErr (List SQSMessage))
    (h : e.code = canceledErrorCode) :
    getMessages (Except.error e) = Except.ok []
    ∧ deleteMessage (some e) = none
    ∧ pollIteration true dec taggers ec2 recvResult = PollOutcome.stopped none := by
  refine ⟨?_, ?_, rfl⟩
  · unfold getMessages
    simp [h]
  · unfold deleteMessage
    simp [h]

/-- Closed instance of claim C9's theorem. -/
theorem cancellation_is_clean_shutdown_witness :
    getMessages (Except.error ⟨"RequestCanceled", "context canceled"⟩) = Except.ok []
    ∧ deleteMessage (some ⟨"RequestCanceled", "context canceled"⟩) = none
    ∧ pollIteration true
        ⟨fun _ => none, fun _ => none⟩ [] ⟨fun _ => Except.ok [], fun _ _ => none⟩
        (Except.ok []) = PollOutcome.stopped none :=
  cancellation_is_clean_shutdown ⟨"RequestCanceled", "context canceled"⟩
    ⟨fun _ => none, fun _ => none⟩ [] ⟨fun _ => Except.ok [], fun _ _ => none⟩
    (Except.ok []) rfl

end Tagd
